/-
Verification of the moveloader boot selector against its specification.

The Rust sources are shallowly embedded: machine integers (u32) become Nat
with explicit bounds where overflow could matter, raw byte buffers become
lists of Nat (each < 256) or functions from addresses to bytes, and the
memory-mapped flash device is abstracted as an oracle recording the trace
of driver calls. Every definition mirrors the corresponding Rust item,
named after it where Lean allows.
-/
import Mathlib

set_option maxRecDepth 100000
set_option maxHeartbeats 2000000

namespace Moveloader

/-! ## Checksum primitive (interface/src/crc.rs) -/

/-- `DEFAULT_POLYNOM` from crc.rs. -/
def DEFAULT_POLYNOM : Nat := 0x82F63B78

/-- `CRC_INITIAL_VALUE` from crc.rs. -/
def CRC_INITIAL_VALUE : Nat := 0xFFFFFFFF

/-- `CRC_FINAL_XOR_VALUE` from crc.rs. -/
def CRC_FINAL_XOR_VALUE : Nat := 0xFFFFFFFF

/-- One iteration of the inner `for _j in 0..8` loop of `calc_crc32`:
shift right by one, xor the polynomial if the low bit was set. -/
def crcShift (crc : Nat) : Nat :=
  if crc % 2 = 1 then (crc / 2) ^^^ DEFAULT_POLYNOM else crc / 2

/-- The eight shift iterations applied after xoring in one message byte. -/
def crcShift8 (crc : Nat) : Nat :=
  crcShift (crcShift (crcShift (crcShift (crcShift (crcShift (crcShift (crcShift crc)))))))

/-- Processing of a single message byte in `calc_crc32`: `crc ^= *i as u32`
followed by the eight shift iterations. -/
def crcByteStep (crc b : Nat) : Nat := crcShift8 (crc ^^^ b)

/-- `calc_crc32` from crc.rs on a byte list (the embedding of the memory
range `message..message+length`). -/
def calc_crc32 (message : List Nat) : Nat :=
  (message.foldl crcByteStep CRC_INITIAL_VALUE) ^^^ CRC_FINAL_XOR_VALUE

/-! ## Little-endian 32-bit codec

All on-flash structs are `repr(C)` little-endian with no padding (statically
asserted in interface/src/lib.rs), so one u32 field occupies four
consecutive bytes, least significant first. -/

/-- The four little-endian bytes of a u32 value. -/
def u32le (x : Nat) : List Nat :=
  [x % 256, x / 256 % 256, x / 65536 % 256, x / 16777216 % 256]

/-- Read a little-endian u32 from byte offset `k` of a byte list
(out-of-range bytes read as 0, matching erased/zeroed memory). -/
def r32 (l : List Nat) (k : Nat) : Nat :=
  l.getD k 0 + 256 * l.getD (k + 1) 0 + 65536 * l.getD (k + 2) 0 +
    16777216 * l.getD (k + 3) 0

/-! ## Data model (interface/src/lib.rs) -/

/-- `ImageMetadata`: exactly 16 bytes, four u32 fields. -/
structure ImageMetadata where
  version : Nat
  crc : Nat
  boot_counter : Nat
  length : Nat
  deriving Repr, DecidableEq

/-- The `[ImageMetadata; 3]` array of a `Metadata` block
(`NUMBER_OF_IMAGES = 3`). -/
structure Images3 where
  i0 : ImageMetadata
  i1 : ImageMetadata
  i2 : ImageMetadata
  deriving Repr, DecidableEq

/-- `array.get(i)` on the three-element image array. -/
def Images3.get? (a : Images3) : Nat → Option ImageMetadata
  | 0 => some a.i0
  | 1 => some a.i1
  | 2 => some a.i2
  | _ => none

/-- The image array in slot order, as laid out in flash. -/
def Images3.toList (a : Images3) : List ImageMetadata := [a.i0, a.i1, a.i2]

/-- `Metadata`: exactly 64 bytes; three u32 fields, the image array, and a
trailing CRC over the first 60 bytes. -/
structure Metadata where
  version : Nat
  bootcounter : Nat
  preferred_image : Nat
  images : Images3
  crc : Nat
  deriving Repr, DecidableEq

/-- Serialization of one `ImageMetadata` (16 bytes, little endian). -/
def ImageMetadata.toBytes (m : ImageMetadata) : List Nat :=
  u32le m.version ++ u32le m.crc ++ u32le m.boot_counter ++ u32le m.length

/-- The first 60 bytes of a `Metadata` block: everything except the CRC
field. `Metadata::calc_crc` checksums exactly these bytes. -/
def Metadata.bytesNoCrc (m : Metadata) : List Nat :=
  u32le m.version ++ u32le m.bootcounter ++ u32le m.preferred_image ++
    (m.images.i0.toBytes ++ m.images.i1.toBytes ++ m.images.i2.toBytes)

/-- Full 64-byte serialization of a `Metadata` block. -/
def Metadata.toBytes (m : Metadata) : List Nat :=
  m.bytesNoCrc ++ u32le m.crc

/-- `Metadata::calc_crc`: CRC-32C over the first 60 bytes of the struct. -/
def Metadata.calc_crc (m : Metadata) : Nat := calc_crc32 m.bytesNoCrc

/-- `Metadata::is_valid`: the stored CRC equals the computed one. -/
def Metadata.is_valid (m : Metadata) : Bool := m.crc == m.calc_crc

/-- `Metadata::set_crc`: rewrite the CRC field with the computed value. -/
def Metadata.set_crc (m : Metadata) : Metadata := { m with crc := m.calc_crc }

/-- Reinterpretation of 16 bytes as an `ImageMetadata`
(`core::ptr::read` / `bytes_to_struct` on a little-endian target). -/
def parseImageMetadata (l : List Nat) (k : Nat) : ImageMetadata :=
  { version := r32 l k
    crc := r32 l (k + 4)
    boot_counter := r32 l (k + 8)
    length := r32 l (k + 12) }

/-- Reinterpretation of 64 bytes as a `Metadata`
(`core::ptr::read` / `bytes_to_struct` on a little-endian target;
field offsets 0/4/8, images at 12/28/44, CRC at 60). -/
def parseMetadata (l : List Nat) : Metadata :=
  { version := r32 l 0
    bootcounter := r32 l 4
    preferred_image := r32 l 8
    images :=
      { i0 := parseImageMetadata l 12
        i1 := parseImageMetadata l 28
        i2 := parseImageMetadata l 44 }
    crc := r32 l 60 }

/-! ## Geometry constants (interface/src/lib.rs) -/

def SINGLE_BANK_PAGE_SIZE : Nat := 0x2000
def DUAL_BANK_PAGE_SIZE : Nat := 0x1000
def MAX_PAGE_SIZE : Nat := 0x2000
def MIN_PAGE_SIZE : Nat := 0x1000
def NUMBER_OF_IMAGES : Nat := 3
def FLASH_SIZE : Nat := 0x200000
def SLOT_SIZE : Nat := 63 * MAX_PAGE_SIZE
def METADATA_1_ADDR : Nat := MAX_PAGE_SIZE
def METADATA_2_ADDR : Nat := 2 * MAX_PAGE_SIZE
def RAM_ADDR : Nat := 0x20000000
def RAM_SIZE : Nat := 0xa0000
def SLOT_1_ADDR : Nat := 3 * MAX_PAGE_SIZE
def SLOT_2_ADDR : Nat := SLOT_1_ADDR + SLOT_SIZE
def SLOT_3_ADDR : Nat := SLOT_2_ADDR + SLOT_SIZE

/-- `SLOT_ADDRS[i]` as a function (indices 0, 1, 2 occur in the code). -/
def slotAddr : Nat → Nat
  | 0 => SLOT_1_ADDR
  | 1 => SLOT_2_ADDR
  | _ => SLOT_3_ADDR

/-! ## Page arithmetic (bootloader/src/pages.rs) -/

/-- `page_span(length, page_size)`: number of pages covered by `length`
bytes starting at a page-aligned address. -/
def page_span (length page_size : Nat) : Nat :=
  (length + page_size - 1) / page_size

/-! ## Metadata selection (bootloader/src/metadata.rs) -/

/-- `MetadataSelectResult` from metadata.rs. -/
structure MetadataSelectResult where
  meta : Option Metadata
  write_addr : Option Nat
  deriving Repr, DecidableEq

/-- `internal_select` from metadata.rs: the pure core of the two-copy
metadata decision. -/
def internal_select (md1 : Metadata) (md1_valid : Bool) (md2 : Metadata)
    (md2_valid : Bool) : MetadataSelectResult :=
  match md1_valid, md2_valid with
  | true, true =>
    if md1.version > md2.version then
      { meta := some md1, write_addr := some METADATA_2_ADDR }
    else if md1.version < md2.version then
      { meta := some md2, write_addr := some METADATA_1_ADDR }
    else
      { meta := some md1, write_addr := none }
  | true, false => { meta := some md1, write_addr := some METADATA_2_ADDR }
  | false, true => { meta := some md2, write_addr := some METADATA_1_ADDR }
  | false, false => { meta := none, write_addr := none }

/-- The decision table of spec section 4.5, written exactly row by row
(spec-side definition, to be compared with `internal_select`). -/
def decisionTableSelect (a b : Metadata) (a_ok b_ok : Bool) :
    MetadataSelectResult :=
  if ¬a_ok ∧ ¬b_ok then { meta := none, write_addr := none }
  else if a_ok ∧ ¬b_ok then { meta := some a, write_addr := some METADATA_2_ADDR }
  else if ¬a_ok ∧ b_ok then { meta := some b, write_addr := some METADATA_1_ADDR }
  else if a.version > b.version then
    { meta := some a, write_addr := some METADATA_2_ADDR }
  else if a.version < b.version then
    { meta := some b, write_addr := some METADATA_1_ADDR }
  else { meta := some a, write_addr := none }

/-! ## Image selection (bootloader/src/metadata.rs)

The device reads slot payloads straight out of memory-mapped flash, which
we embed as a byte function `flash : Nat → Nat` indexed by address. -/

/-- The byte list at `[start, start + len)` of a byte function. -/
def readBytes (mem : Nat → Nat) (start len : Nat) : List Nat :=
  (List.range len).map fun i => mem (start + i)

/-- `verify_image` from metadata.rs: CRC-32C over the first `length` bytes
at `addr` equals the declared image CRC. -/
def verify_image (image_meta : ImageMetadata) (flash : Nat → Nat)
    (addr : Nat) : Bool :=
  calc_crc32 (readBytes flash addr image_meta.length) == image_meta.crc

/-- The condition of the first branch of `select_image`: the preferred
index lands inside the image array and that slot's payload checksums. -/
def preferredHit (flash : Nat → Nat) (m : Metadata) : Bool :=
  match m.images.get? m.preferred_image with
  | some image_meta => verify_image image_meta flash (slotAddr m.preferred_image)
  | none => false

/-- `select_image` from metadata.rs. `none` stands for the
`todo!("Random image boot not implemented yet.")` panic reached when no
slot verifies. -/
def select_image (flash : Nat → Nat) (m : Metadata) : Option Nat :=
  if preferredHit flash m then some m.preferred_image
  else if verify_image m.images.i0 flash (slotAddr 0) then some 0
  else if verify_image m.images.i1 flash (slotAddr 1) then some 1
  else if verify_image m.images.i2 flash (slotAddr 2) then some 2
  else none

/-! ## Flash driver model (bootloader/src/flash.rs)

The flash controller's status bits and the success of the hardware
operations are environment-determined, so the device is an oracle fixing
the outcome of each primitive; each embedded driver call appends its event
to a trace so that lock/unlock pairing across `write_metadata` becomes a
statement about traces. -/

/-- `Error` from flash.rs. -/
inductive FlashError where
  | UnlockFailed
  | Busy
  | Illegal
  | InvalidPage
  deriving Repr, DecidableEq

/-- One driver call observable from outside the driver. -/
inductive FlashEvent where
  | unlock
  | erasePage (page : Nat)
  | writeDwords (addr : Nat)
  | lock
  deriving Repr, DecidableEq

/-- Environment-determined outcomes of the flash hardware. `eraseOutcome`
and `writeOutcome` are the status the `wait`/EOP polling of
`erase_page` / `write_dwords` reports (`none` = success). -/
structure FlashDev where
  dualbank : Bool
  unlockFails : Bool
  eraseOutcome : Option FlashError
  writeOutcome : Option FlashError

/-- `Flash::page_size`. -/
def FlashDev.page_size (d : FlashDev) : Nat :=
  if d.dualbank then DUAL_BANK_PAGE_SIZE else SINGLE_BANK_PAGE_SIZE

/-- `Flash::address_to_page_number`. -/
def FlashDev.address_to_page_number (d : FlashDev) (address : Nat) : Nat :=
  address / d.page_size

/-- `Flash::unlock_flash`: writes the two keys, then fails iff the lock
bit is still set. -/
def unlock_flash (d : FlashDev) (tr : List FlashEvent) :
    Except FlashError Unit × List FlashEvent :=
  ((if d.unlockFails then .error .UnlockFailed else .ok ()),
    tr ++ [.unlock])

/-- `Flash::lock_flash` (infallible). -/
def lock_flash (tr : List FlashEvent) : List FlashEvent := tr ++ [.lock]

/-- `Flash::erase_page`: rejects out-of-range page numbers for the current
geometry, otherwise reports the hardware outcome. -/
def erase_page (d : FlashDev) (tr : List FlashEvent) (page_number : Nat) :
    Except FlashError Unit × List FlashEvent :=
  let result : Except FlashError Unit :=
    if d.dualbank then
      if page_number ≥ 512 then .error .InvalidPage
      else match d.eraseOutcome with
        | some e => .error e
        | none => .ok ()
    else
      if page_number ≥ 256 then .error .InvalidPage
      else match d.eraseOutcome with
        | some e => .error e
        | none => .ok ()
  (result, tr ++ [.erasePage page_number])

/-- `Flash::write_dwords`: reports the hardware outcome of programming the
doubleword stream at `addr`. -/
def write_dwords (d : FlashDev) (tr : List FlashEvent) (addr : Nat) :
    Except FlashError Unit × List FlashEvent :=
  ((match d.writeOutcome with
    | some e => .error e
    | none => .ok ()),
    tr ++ [.writeDwords addr])

/-- `write_metadata` from metadata.rs: unlock, erase the containing page,
program the 64-byte block, lock — with the `?` operator propagating every
error as an early return exactly as the source does. -/
def write_metadata (d : FlashDev) (tr : List FlashEvent) (meta : Metadata)
    (addr : Nat) : Except FlashError Metadata × List FlashEvent :=
  match unlock_flash d tr with
  | (.error e, tr1) => (.error e, tr1)
  | (.ok _, tr1) =>
    match erase_page d tr1 (d.address_to_page_number addr) with
    | (.error e, tr2) => (.error e, tr2)
    | (.ok _, tr2) =>
      match write_dwords d tr2 addr with
      | (.error e, tr3) => (.error e, tr3)
      | (.ok _, tr3) => (.ok meta, lock_flash tr3)

/-- `select_metadata` from metadata.rs: run `internal_select` over the two
copies and their validity, then repair through `write_metadata` when a
write address was produced. -/
def select_metadata (d : FlashDev) (md1 md2 : Metadata) :
    (Option Metadata × Except FlashError Unit) × List FlashEvent :=
  let r := internal_select md1 md1.is_valid md2 md2.is_valid
  match r.meta with
  | some metadata =>
    match r.write_addr with
    | some write_addr =>
      match write_metadata d [] metadata write_addr with
      | (.ok _, tr) => ((some metadata, .ok ()), tr)
      | (.error e, tr) => ((some metadata, .error e), tr)
    | none => ((some metadata, .ok ()), [])
  | none => ((none, .ok ()), [])

/-! ## Boot orchestrator (bootloader/src/main.rs) -/

/-- `copy_image_to_ram`: up to three copy attempts, each succeeding iff
the CRC of the RAM copy matches the CRC taken over the flash source.
Whether attempt `t` reproduces the source bytes is environment-determined
(RAM upsets, in-flight flash reads), so it is an oracle `attemptOk`. -/
def copy_image_to_ram (attemptOk : Nat → Bool) : Except Unit Unit :=
  if attemptOk 0 then .ok ()
  else if attemptOk 1 then .ok ()
  else if attemptOk 2 then .ok ()
  else .error ()

/-- The RTC scratch-register state read by `is_soft` (`bkpr[0]`,
`bkpr[1]`). -/
structure Scratch where
  bkpr0 : Nat
  bkpr1 : Nat
  deriving Repr, DecidableEq

/-- `is_soft` from main.rs: returns the chosen index and the registers
after the call (both zeroed whenever the magic was present). -/
def is_soft (s : Scratch) : Option Nat × Scratch :=
  if s.bkpr0 = 0x5457 then
    let index := s.bkpr1
    let cleared : Scratch := { bkpr0 := 0, bkpr1 := 0 }
    if index < NUMBER_OF_IMAGES then (some index, cleared)
    else (none, cleared)
  else (none, s)

/-- How `run` terminates. `handoff src len` is `jump_to_image` after
copying `len` bytes from flash address `src`; `failsafeBoot` is the
`todo!` failsafe; `noImageAvailable` is the `todo!` inside
`select_image`. -/
inductive BootOutcome where
  | handoff (src len : Nat)
  | failsafeBoot
  | noImageAvailable
  deriving Repr, DecidableEq

/-- Everything the environment supplies to one `run` of the bootloader:
scratch registers, the two metadata blocks read from flash, the flash
byte contents, the flash-hardware oracle and the copy oracle. -/
structure BootEnv where
  scratch : Scratch
  md1 : Metadata
  md2 : Metadata
  flashMem : Nat → Nat
  dev : FlashDev
  copyOk : Nat → Bool

/-- The observable result of `run`: the terminal outcome, the scratch
registers left behind, the (discarded, see main.rs) result of
`copy_image_to_ram`, and the flash-driver trace of the repair path. -/
structure RunResult where
  outcome : BootOutcome
  scratch : Scratch
  copyResult : Option (Except Unit Unit)
  flashEvents : List FlashEvent

/-- `run` from main.rs: soft-reboot hint first (bypassing all metadata
logic), otherwise metadata selection, repair, image selection, copy and
hand-off. The source discards the value of `copy_image_to_ram` on both
paths and jumps unconditionally; the embedding therefore records the copy
result separately from the outcome. -/
def run (env : BootEnv) : RunResult :=
  match is_soft env.scratch with
  | (some index, scratch') =>
    { outcome := .handoff (slotAddr index) SLOT_SIZE
      scratch := scratch'
      copyResult := some (copy_image_to_ram env.copyOk)
      flashEvents := [] }
  | (none, scratch') =>
    match select_metadata env.dev env.md1 env.md2 with
    | ((some metadata, _fix), tr) =>
      match select_image env.flashMem metadata with
      | some index =>
        { outcome :=
            .handoff (slotAddr index)
              ((metadata.images.get? index).getD
                ⟨0, 0, 0, 0⟩).length
          scratch := scratch'
          copyResult := some (copy_image_to_ram env.copyOk)
          flashEvents := tr }
      | none =>
        { outcome := .noImageAvailable
          scratch := scratch'
          copyResult := none
          flashEvents := tr }
    | ((none, _fix), tr) =>
      { outcome := .failsafeBoot
        scratch := scratch'
        copyResult := none
        flashEvents := tr }

/-! ## Host image builder (image-builder/src)

The host tool works on `Vec<u8>` buffers. The 2 MiB output buffer is
embedded as a size plus a byte function; payload byte vectors stay lists.
`arm-none-eabi-objdump`-based heuristics (`is_likely_valid_binary_buf`)
depend only on the payload bytes, so they are abstracted as an oracle
`binCheck : List Nat → Bool` shared by the writer and the reader. -/

/-- Result of host code that can panic (index out of bounds). -/
inductive PanicOr (α : Type) where
  | panicked
  | val (a : α)
  deriving Repr, DecidableEq

/-- `is_likely_valid_os_image_buf` from verification.rs: reads
`bytes[4..8]` as the little-endian entry point with direct indexing (a
panic when any index is out of bounds), then requires it to lie in
`[RAM_ADDR, RAM_ADDR + RAM_SIZE)`. `val true` is `Ok(())`, `val false`
the `UnexpectedInterruptVectorTable` error. -/
def is_likely_valid_os_image_buf (bytes : List Nat) : PanicOr Bool :=
  match bytes.get? 4, bytes.get? 5, bytes.get? 6, bytes.get? 7 with
  | some b4, some b5, some b6, some b7 =>
    .val (decide (RAM_ADDR ≤ b4 + 256 * b5 + 65536 * b6 + 16777216 * b7 ∧
      b4 + 256 * b5 + 65536 * b6 + 16777216 * b7 < RAM_ADDR + RAM_SIZE))
  | _, _, _, _ => .panicked

/-- What `get_thumb_instruction_stats` (verification.rs) extracts from
the `arm-none-eabi-objdump` disassembly of one payload: the number of
distinct instruction mnemonics seen, and whether the ratio of
`<UNDEFINED>` lines exceeded `BINARY_UNDEFINED_INSTRUCTIONS_THRESHOLD`.
The disassembly is an external process, so it enters as an oracle
`disasm : List Nat → InstructionStats`; every real disassembly emits at
most one instruction line per two bytes (a Thumb instruction is at
least two bytes), so callers carry the bound
`(disasm bytes).uniqueMnemonics ≤ (bytes.length + 1) / 2`. -/
structure InstructionStats where
  uniqueMnemonics : Nat
  undefinedTooMany : Bool

/-- `BINARY_MIN_UNIQUE_INSTRUCTIONS` from verification.rs. -/
def BINARY_MIN_UNIQUE_INSTRUCTIONS : Nat := 15

/-- `is_likely_valid_binary_buf` from verification.rs: reject the ELF
magic in bytes 0..4, then too many undefined instructions, then fewer
than 15 distinct mnemonics; `true` is `Ok(())`. -/
def is_likely_valid_binary_buf (disasm : List Nat → InstructionStats)
    (bytes : List Nat) : Bool :=
  if bytes.take 4 = [0x7f, 0x45, 0x4c, 0x46] then false
  else if (disasm bytes).undefinedTooMany then false
  else if (disasm bytes).uniqueMnemonics <
      BINARY_MIN_UNIQUE_INSTRUCTIONS then false
  else true

/-- The most permissive disassembly consistent with the two-byte
minimum instruction size: every two-byte unit its own distinct
mnemonic, no undefined instructions. -/
def maxDisasm : List Nat → InstructionStats := fun bytes =>
  { uniqueMnemonics := (bytes.length + 1) / 2, undefinedTooMany := false }

/-- The host output buffer (`Vec<u8>` of length `FLASH_SIZE`). -/
structure Buf where
  size : Nat
  byteAt : Nat → Nat

/-- The successful effect of `set_buf_from_to`: bytes of `src` at
`[a, a + src.len)`, zeros at `[a + src.len, to)`, the old contents
elsewhere. -/
def writeRange (target : Buf) (a : Nat) (src : List Nat) (upto : Nat) :
    Buf :=
  { size := target.size
    byteAt := fun p =>
      if a ≤ p ∧ p < a + src.length then src.getD (p - a) 0
      else if a + src.length ≤ p ∧ p < upto then 0
      else target.byteAt p }

/-- `set_buf_from_to` from byte_utils.rs. -/
def set_buf_from_to (target : Buf) (a upto : Nat) (src : List Nat) :
    Except Unit Buf :=
  if a + src.length > upto ∨ upto > target.size then .error ()
  else .ok (writeRange target a src upto)

/-- Outcome of `generate_buffer`: a crash, a returned `Err`, or the
finished buffer. -/
inductive GenResult where
  | panicked
  | err
  | ok (buf : Buf)

/-- The per-image body of the `generate_buffer` loop: slot-size check,
binary heuristic, OS-image entry-point check, then the slot write. -/
def writeImage (binCheck : List Nat → Bool) (data : Buf)
    (image : List Nat) (addr : Nat) : GenResult :=
  if image.length > SLOT_SIZE then .err
  else if ¬binCheck image then .err
  else
    match is_likely_valid_os_image_buf image with
    | .panicked => .panicked
    | .val false => .err
    | .val true =>
      match set_buf_from_to data addr (addr + image.length) image with
      | .error _ => .err
      | .ok data' => .ok data'

/-- The `ImageMetadata` record `generate_buffer` pushes for one image. -/
def imageMetadataFor (image : List Nat) : ImageMetadata :=
  { version := 1, crc := calc_crc32 image, boot_counter := 0
    length := image.length }

/-- The single `Metadata` block `generate_buffer` builds and checksums. -/
def generatedMetadata (image_1 image_2 image_3 : List Nat) : Metadata :=
  Metadata.set_crc
    { version := 1, bootcounter := 0, preferred_image := 0
      images :=
        { i0 := imageMetadataFor image_1
          i1 := imageMetadataFor image_2
          i2 := imageMetadataFor image_3 }
      crc := 0 }

/-- `generate_buffer` from generate.rs: bootloader heuristic and write,
three slot writes with their checks, then the identical metadata block at
both metadata addresses (zero-padding each region). -/
def generate_buffer (binCheck : List Nat → Bool)
    (bootloader_bin image_1_bin image_2_bin image_3_bin : List Nat) :
    GenResult :=
  if ¬binCheck bootloader_bin then .err
  else
    match set_buf_from_to { size := FLASH_SIZE, byteAt := fun _ => 0 }
        0 METADATA_1_ADDR bootloader_bin with
    | .error _ => .err
    | .ok d1 =>
      match writeImage binCheck d1 image_1_bin SLOT_1_ADDR with
      | .panicked => .panicked
      | .err => .err
      | .ok d2 =>
        match writeImage binCheck d2 image_2_bin SLOT_2_ADDR with
        | .panicked => .panicked
        | .err => .err
        | .ok d3 =>
          match writeImage binCheck d3 image_3_bin SLOT_3_ADDR with
          | .panicked => .panicked
          | .err => .err
          | .ok d4 =>
            match set_buf_from_to d4 METADATA_1_ADDR METADATA_2_ADDR
                (generatedMetadata image_1_bin image_2_bin
                  image_3_bin).toBytes with
            | .error _ => .err
            | .ok d5 =>
              match set_buf_from_to d5 METADATA_2_ADDR SLOT_1_ADDR
                  (generatedMetadata image_1_bin image_2_bin
                    image_3_bin).toBytes with
              | .error _ => .err
              | .ok d6 => .ok d6

/-- The discrepancies `read` can push (read.rs); `which` is the
metadata copy (1 or 2), `idx` the image index. -/
inductive ReadErr where
  | wrongSize
  | metadataCrcInvalid (which : Nat)
  | imageOutOfBounds (which idx : Nat)
  | imageCrcInvalid (which idx : Nat)
  | imageNotValidBinary (which idx : Nat)
  | imageNotValidOsImage (which idx : Nat)
  | metadataMismatch
  deriving Repr, DecidableEq

/-- One iteration of the `read` verification loop: bounds, payload CRC,
binary heuristic and OS-image check for image `idx` against metadata copy
`which`. -/
def checkSlot (binCheck : List Nat → Bool) (buf : Buf) (md : Metadata)
    (which idx : Nat) : PanicOr (List ReadErr) :=
  if slotAddr idx + ((md.images.get? idx).getD ⟨0, 0, 0, 0⟩).length >
      buf.size then
    .val [.imageOutOfBounds which idx]
  else
    match is_likely_valid_os_image_buf (readBytes buf.byteAt (slotAddr idx)
        ((md.images.get? idx).getD ⟨0, 0, 0, 0⟩).length) with
    | .panicked => .panicked
    | .val osOk =>
      .val ((if calc_crc32 (readBytes buf.byteAt (slotAddr idx)
              ((md.images.get? idx).getD ⟨0, 0, 0, 0⟩).length) ≠
            ((md.images.get? idx).getD ⟨0, 0, 0, 0⟩).crc then
          [.imageCrcInvalid which idx] else []) ++
        (if ¬binCheck (readBytes buf.byteAt (slotAddr idx)
              ((md.images.get? idx).getD ⟨0, 0, 0, 0⟩).length) then
          [.imageNotValidBinary which idx] else []) ++
        (if ¬osOk then [.imageNotValidOsImage which idx] else []))

/-- The body of `read` after the two metadata blocks have been parsed:
CRC checks for both copies, the slot loop over both copies, and the
byte-for-byte comparison of the two blocks. -/
def readChecks (binCheck : List Nat → Bool) (buf : Buf)
    (metadata_1 metadata_2 : Metadata) : PanicOr (List ReadErr) :=
  match checkSlot binCheck buf metadata_1 1 0 with
    | .panicked => .panicked
    | .val e10 =>
      match checkSlot binCheck buf metadata_2 2 0 with
      | .panicked => .panicked
      | .val e20 =>
        match checkSlot binCheck buf metadata_1 1 1 with
        | .panicked => .panicked
        | .val e11 =>
          match checkSlot binCheck buf metadata_2 2 1 with
          | .panicked => .panicked
          | .val e21 =>
            match checkSlot binCheck buf metadata_1 1 2 with
            | .panicked => .panicked
            | .val e12 =>
              match checkSlot binCheck buf metadata_2 2 2 with
              | .panicked => .panicked
              | .val e22 =>
                .val ((if metadata_1.crc ≠ metadata_1.calc_crc then
                      [.metadataCrcInvalid 1] else []) ++
                  (if metadata_2.crc ≠ metadata_2.calc_crc then
                      [.metadataCrcInvalid 2] else []) ++
                  e10 ++ e20 ++ e11 ++ e21 ++ e12 ++ e22 ++
                  (if metadata_1 ≠ metadata_2 then [.metadataMismatch]
                    else []))

/-- `read` from read.rs: size check, then all verification passes over
the two parsed metadata blocks; returns the accumulated discrepancy
list. -/
def read (binCheck : List Nat → Bool) (buf : Buf) :
    PanicOr (List ReadErr) :=
  if buf.size ≠ FLASH_SIZE then .val [.wrongSize]
  else
    readChecks binCheck buf
      (parseMetadata (readBytes buf.byteAt METADATA_1_ADDR 64))
      (parseMetadata (readBytes buf.byteAt METADATA_2_ADDR 64))

/-! ## Concrete instances for counterexamples and witnesses -/

/-- An arbitrary concrete metadata block (contents irrelevant for the
lock-pairing trace). -/
def sampleMetadata : Metadata :=
  { version := 1, bootcounter := 0, preferred_image := 0
    images :=
      { i0 := ⟨1, 0, 0, 0⟩, i1 := ⟨1, 0, 0, 0⟩, i2 := ⟨1, 0, 0, 0⟩ }
    crc := 0 }

/-- `sampleMetadata` with its CRC field set, hence valid. -/
def validSampleMetadata : Metadata := sampleMetadata.set_crc

/-- A flash device on which unlocking succeeds but the page erase reports
`Illegal` (an error status such as WRPERR observed while waiting). -/
def eraseIllegalDev : FlashDev :=
  { dualbank := false, unlockFails := false
    eraseOutcome := some .Illegal, writeOutcome := none }

/-- A flash device on which every operation succeeds (single-bank). -/
def healthyDev : FlashDev :=
  { dualbank := false, unlockFails := false
    eraseOutcome := none, writeOutcome := none }

/-- Boot environment: no soft-reboot hint, both metadata copies valid and
identical, empty zero-length slot images, and a copy-to-RAM oracle on
which all three attempts fail the CRC comparison. -/
def copyAlwaysFailsEnv : BootEnv :=
  { scratch := ⟨0, 0⟩
    md1 := validSampleMetadata
    md2 := validSampleMetadata
    flashMem := fun _ => 0
    dev := healthyDev
    copyOk := fun _ => false }

/-! ## Helper lemmas -/

/-- The checksummed 60 bytes never include the CRC field, so rewriting
that field does not change them. -/
theorem bytesNoCrc_set_crc (m : Metadata) :
    m.set_crc.bytesNoCrc = m.bytesNoCrc := rfl

/-- Setting the CRC field makes the block valid (first half of spec
invariant 3, reused to discharge validity hypotheses at witnesses). -/
theorem is_valid_set_crc (m : Metadata) : m.set_crc.is_valid = true := by
  show (m.calc_crc == m.calc_crc) = true
  exact beq_self_eq_true _

/-- `crcShift` stays within 32 bits. -/
theorem crcShift_lt {c : Nat} (h : c < 2 ^ 32) : crcShift c < 2 ^ 32 := by
  unfold crcShift
  split
  · exact Nat.xor_lt_two_pow (by omega) (by decide)
  · omega

/-- `crcShift` is injective on 32-bit values: the shifted-out low bit is
recoverable from bit 31 of the result because the polynomial has its top
bit set. -/
theorem crcShift_inj {a b : Nat} (ha : a < 2 ^ 32) (hb : b < 2 ^ 32)
    (h : crcShift a = crcShift b) : a = b := by
  have hP : DEFAULT_POLYNOM.testBit 31 = true := by decide
  unfold crcShift at h
  by_cases pa : a % 2 = 1 <;> by_cases pb : b % 2 = 1
  · rw [if_pos pa, if_pos pb] at h
    have h2 : a / 2 = b / 2 := by
      have h3 := congrArg (fun x => x ^^^ DEFAULT_POLYNOM) h
      simpa [Nat.xor_cancel_right] using h3
    omega
  · rw [if_pos pa, if_neg pb] at h
    exfalso
    have h31 : ((a / 2) ^^^ DEFAULT_POLYNOM).testBit 31 = true := by
      simp [Nat.testBit_xor,
        Nat.testBit_lt_two_pow (show a / 2 < 2 ^ 31 by omega), hP]
    rw [h, Nat.testBit_lt_two_pow (show b / 2 < 2 ^ 31 by omega)] at h31
    exact Bool.noConfusion h31
  · rw [if_neg pa, if_pos pb] at h
    exfalso
    have h31 : ((b / 2) ^^^ DEFAULT_POLYNOM).testBit 31 = true := by
      simp [Nat.testBit_xor,
        Nat.testBit_lt_two_pow (show b / 2 < 2 ^ 31 by omega), hP]
    rw [← h, Nat.testBit_lt_two_pow (show a / 2 < 2 ^ 31 by omega)] at h31
    exact Bool.noConfusion h31
  · rw [if_neg pa, if_neg pb] at h
    omega

/-- The eight-fold shift stays within 32 bits. -/
theorem crcShift8_lt {c : Nat} (h : c < 2 ^ 32) : crcShift8 c < 2 ^ 32 :=
  crcShift_lt (crcShift_lt (crcShift_lt (crcShift_lt (crcShift_lt
    (crcShift_lt (crcShift_lt (crcShift_lt h)))))))

/-- The eight-fold shift is injective on 32-bit values. -/
theorem crcShift8_inj {a b : Nat} (ha : a < 2 ^ 32) (hb : b < 2 ^ 32)
    (h : crcShift8 a = crcShift8 b) : a = b := by
  unfold crcShift8 at h
  have l1 := fun {x : Nat} (hx : x < 2 ^ 32) => crcShift_lt hx
  exact crcShift_inj ha hb
    (crcShift_inj (l1 ha) (l1 hb)
      (crcShift_inj (l1 (l1 ha)) (l1 (l1 hb))
        (crcShift_inj (l1 (l1 (l1 ha))) (l1 (l1 (l1 hb)))
          (crcShift_inj (l1 (l1 (l1 (l1 ha)))) (l1 (l1 (l1 (l1 hb))))
            (crcShift_inj (l1 (l1 (l1 (l1 (l1 ha)))))
              (l1 (l1 (l1 (l1 (l1 hb)))))
              (crcShift_inj (l1 (l1 (l1 (l1 (l1 (l1 ha))))))
                (l1 (l1 (l1 (l1 (l1 (l1 hb))))))
                (crcShift_inj (l1 (l1 (l1 (l1 (l1 (l1 (l1 ha)))))))
                  (l1 (l1 (l1 (l1 (l1 (l1 (l1 hb))))))) h)))))))

/-- One byte step stays within 32 bits. -/
theorem crcByteStep_lt {c b : Nat} (hc : c < 2 ^ 32) (hb : b < 2 ^ 32) :
    crcByteStep c b < 2 ^ 32 :=
  crcShift8_lt (Nat.xor_lt_two_pow hc hb)

/-- One byte step is injective in the running CRC. -/
theorem crcByteStep_inj_crc {c c' b : Nat} (hc : c < 2 ^ 32)
    (hc' : c' < 2 ^ 32) (hb : b < 2 ^ 32)
    (h : crcByteStep c b = crcByteStep c' b) : c = c' := by
  have h2 : c ^^^ b = c' ^^^ b :=
    crcShift8_inj (Nat.xor_lt_two_pow hc hb) (Nat.xor_lt_two_pow hc' hb) h
  have h3 := congrArg (fun x => x ^^^ b) h2
  simpa [Nat.xor_cancel_right] using h3

/-- One byte step is injective in the message byte. -/
theorem crcByteStep_inj_byte {c x y : Nat} (hc : c < 2 ^ 32)
    (hx : x < 2 ^ 32) (hy : y < 2 ^ 32)
    (h : crcByteStep c x = crcByteStep c y) : x = y := by
  have h2 : c ^^^ x = c ^^^ y :=
    crcShift8_inj (Nat.xor_lt_two_pow hc hx) (Nat.xor_lt_two_pow hc hy) h
  have h3 := congrArg (fun z => c ^^^ z) h2
  simpa [← Nat.xor_assoc] using h3

/-- The CRC fold stays within 32 bits for byte-valued input. -/
theorem foldl_crc_lt : ∀ (l : List Nat) (c : Nat), (∀ b ∈ l, b < 256) →
    c < 2 ^ 32 → l.foldl crcByteStep c < 2 ^ 32 := by
  intro l
  induction l with
  | nil => intro c _ hc; simpa using hc
  | cons a t ih =>
    intro c hl hc
    rw [List.foldl_cons]
    exact ih _ (fun b hb => hl b (List.mem_cons_of_mem a hb))
      (crcByteStep_lt hc (by have := hl a (List.mem_cons_self a t); omega))

/-- The CRC fold is injective in its accumulator: different running CRCs
stay different through any byte tail. -/
theorem foldl_crc_inj : ∀ (l : List Nat) (c c' : Nat),
    (∀ b ∈ l, b < 256) → c < 2 ^ 32 → c' < 2 ^ 32 → c ≠ c' →
    l.foldl crcByteStep c ≠ l.foldl crcByteStep c' := by
  intro l
  induction l with
  | nil => intro c c' _ _ _ hne; simpa using hne
  | cons a t ih =>
    intro c c' hl hc hc' hne
    rw [List.foldl_cons, List.foldl_cons]
    have ha : a < 256 := hl a (List.mem_cons_self a t)
    refine ih _ _ (fun b hb => hl b (List.mem_cons_of_mem a hb))
      (crcByteStep_lt hc (by omega)) (crcByteStep_lt hc' (by omega)) ?_
    intro heq
    exact hne (crcByteStep_inj_crc hc hc' (by omega) heq)

/-- CRC-32C detects every single-byte substitution: changing one byte of
the message changes the checksum. -/
theorem calc_crc32_single_byte_change (pre suf : List Nat) (x y : Nat)
    (hpre : ∀ b ∈ pre, b < 256) (hsuf : ∀ b ∈ suf, b < 256)
    (hx : x < 256) (hy : y < 256) (hxy : x ≠ y) :
    calc_crc32 (pre ++ x :: suf) ≠ calc_crc32 (pre ++ y :: suf) := by
  unfold calc_crc32
  intro h
  have h2 : (pre ++ x :: suf).foldl crcByteStep CRC_INITIAL_VALUE =
      (pre ++ y :: suf).foldl crcByteStep CRC_INITIAL_VALUE := by
    have h3 := congrArg (fun z => z ^^^ CRC_FINAL_XOR_VALUE) h
    simpa [Nat.xor_cancel_right] using h3
  rw [List.foldl_append, List.foldl_append, List.foldl_cons,
    List.foldl_cons] at h2
  have hc : pre.foldl crcByteStep CRC_INITIAL_VALUE < 2 ^ 32 :=
    foldl_crc_lt pre _ hpre (by decide)
  refine foldl_crc_inj suf _ _ hsuf (crcByteStep_lt hc (by omega))
    (crcByteStep_lt hc (by omega)) ?_ h2
  intro heq
  exact hxy (crcByteStep_inj_byte hc (by omega) (by omega) heq)

/-- Every byte of a little-endian u32 is below 256. -/
theorem u32le_mem_lt {x b : Nat} (h : b ∈ u32le x) : b < 256 := by
  simp [u32le] at h
  rcases h with h | h | h | h <;> omega

/-- Every byte of the checksummed 60-byte region is below 256. -/
theorem bytesNoCrc_mem_lt (m : Metadata) : ∀ b ∈ m.bytesNoCrc, b < 256 := by
  intro b hb
  simp only [Metadata.bytesNoCrc, ImageMetadata.toBytes, List.append_assoc,
    List.mem_append] at hb
  rcases hb with h | h | h | h | h | h | h | h | h | h | h | h | h | h | h <;>
    exact u32le_mem_lt h

/-- The checksummed region is exactly 60 bytes long. -/
theorem bytesNoCrc_length (m : Metadata) : m.bytesNoCrc.length = 60 := by
  simp [Metadata.bytesNoCrc, ImageMetadata.toBytes, u32le]

/-- Decompose a list at a position into prefix, element and suffix. -/
theorem list_decomp_getD (l : List Nat) (i : Nat) (h : i < l.length) :
    l = l.take i ++ l.getD i 0 :: l.drop (i + 1) := by
  rw [List.getD_eq_getElem l 0 h]
  conv_lhs => rw [← List.take_append_drop i l]
  congr 1
  exact (List.getElem_cons_drop l i h).symm

/-- `List.set` at an in-range position replaces exactly that element. -/
theorem list_set_decomp (l : List Nat) (i y : Nat) (h : i < l.length) :
    l.set i y = l.take i ++ y :: l.drop (i + 1) := by
  rw [List.set_eq_take_append_cons_drop, if_pos h]

/-! ### Buffer write/read lemmas -/

/-- `writeRange` keeps the buffer size. -/
theorem writeRange_size (t : Buf) (a : Nat) (src : List Nat) (upto : Nat) :
    (writeRange t a src upto).size = t.size := rfl

/-- Reading inside the source range of a `writeRange` yields the source. -/
theorem writeRange_at_src (t : Buf) (a : Nat) (src : List Nat)
    (upto p : Nat) (h1 : a ≤ p) (h2 : p < a + src.length) :
    (writeRange t a src upto).byteAt p = src.getD (p - a) 0 := by
  simp only [writeRange]
  rw [if_pos ⟨h1, h2⟩]

/-- Reading inside the zero-padded tail of a `writeRange` yields 0. -/
theorem writeRange_at_pad (t : Buf) (a : Nat) (src : List Nat)
    (upto p : Nat) (h1 : a + src.length ≤ p) (h2 : p < upto) :
    (writeRange t a src upto).byteAt p = 0 := by
  simp only [writeRange]
  rw [if_neg (by omega), if_pos ⟨h1, h2⟩]

/-- Reading outside the written region of a `writeRange` yields the old
buffer contents. -/
theorem writeRange_at_outside (t : Buf) (a : Nat) (src : List Nat)
    (upto p : Nat) (h : p < a ∨ (upto ≤ p ∧ a + src.length ≤ p)) :
    (writeRange t a src upto).byteAt p = t.byteAt p := by
  simp only [writeRange]
  rw [if_neg (by omega), if_neg (by omega)]

/-- `readBytes` returns as many bytes as requested. -/
theorem readBytes_length (f : Nat → Nat) (s n : Nat) :
    (readBytes f s n).length = n := by
  simp [readBytes]

/-- A byte range that pointwise equals a list is that list. -/
theorem readBytes_eq_list (f : Nat → Nat) (s : Nat) (l : List Nat)
    (h : ∀ j, j < l.length → f (s + j) = l.getD j 0) :
    readBytes f s l.length = l := by
  apply List.ext_getElem (by simp [readBytes])
  intro i h1 h2
  simp only [readBytes, List.getElem_map, List.getElem_range]
  rw [h i h2, List.getD_eq_getElem l 0 h2]

/-! ### Little-endian codec lemmas -/

/-- Skipping one whole u32 block when indexing past it. -/
theorem cons4_getD_skip (a b c d : Nat) (l : List Nat) (n : Nat) :
    (a :: b :: c :: d :: l).getD (n + 4) 0 = l.getD n 0 := rfl

/-- Recomposing a u32 from its four little-endian bytes. -/
theorem u32le_recompose (x : Nat) (h : x < 2 ^ 32) :
    x % 256 + 256 * (x / 256 % 256) + 65536 * (x / 65536 % 256) +
      16777216 * (x / 16777216 % 256) = x := by
  omega

/-- All sixteen u32 fields of a metadata block are 32-bit values. -/
def MetadataWf (m : Metadata) : Prop :=
  m.version < 2 ^ 32 ∧ m.bootcounter < 2 ^ 32 ∧
    m.preferred_image < 2 ^ 32 ∧
    m.images.i0.version < 2 ^ 32 ∧ m.images.i0.crc < 2 ^ 32 ∧
    m.images.i0.boot_counter < 2 ^ 32 ∧ m.images.i0.length < 2 ^ 32 ∧
    m.images.i1.version < 2 ^ 32 ∧ m.images.i1.crc < 2 ^ 32 ∧
    m.images.i1.boot_counter < 2 ^ 32 ∧ m.images.i1.length < 2 ^ 32 ∧
    m.images.i2.version < 2 ^ 32 ∧ m.images.i2.crc < 2 ^ 32 ∧
    m.images.i2.boot_counter < 2 ^ 32 ∧ m.images.i2.length < 2 ^ 32 ∧
    m.crc < 2 ^ 32

/-- Reinterpreting the 64-byte serialization of a well-formed metadata
block recovers the block (`bytes_to_struct ∘ struct_to_bytes = id`). -/
theorem parseMetadata_toBytes (m : Metadata) (hwf : MetadataWf m) :
    parseMetadata m.toBytes = m := by
  obtain ⟨w1, w2, w3, w4, w5, w6, w7, w8, w9, w10, w11, w12, w13, w14,
    w15, w16⟩ := hwf
  rcases m with ⟨v, bc, pi, ⟨⟨a0, a1, a2, a3⟩, ⟨b0, b1, b2, b3⟩,
    ⟨c0, c1, c2, c3⟩⟩, cr⟩
  simp only [parseMetadata, parseImageMetadata, Metadata.mk.injEq,
    Images3.mk.injEq, ImageMetadata.mk.injEq]
  exact ⟨u32le_recompose v w1, u32le_recompose bc w2,
    u32le_recompose pi w3,
    ⟨⟨u32le_recompose a0 w4, u32le_recompose a1 w5,
        u32le_recompose a2 w6, u32le_recompose a3 w7⟩,
      ⟨u32le_recompose b0 w8, u32le_recompose b1 w9,
        u32le_recompose b2 w10, u32le_recompose b3 w11⟩,
      ⟨u32le_recompose c0 w12, u32le_recompose c1 w13,
        u32le_recompose c2 w14, u32le_recompose c3 w15⟩⟩,
    u32le_recompose cr w16⟩

/-- The serialization of a metadata block is exactly 64 bytes. -/
theorem toBytes_length (m : Metadata) : m.toBytes.length = 64 := by
  simp [Metadata.toBytes, Metadata.bytesNoCrc, ImageMetadata.toBytes,
    u32le]

/-- The CRC-32C of a byte list is a 32-bit value. -/
theorem calc_crc32_lt (l : List Nat) (h : ∀ b ∈ l, b < 256) :
    calc_crc32 l < 2 ^ 32 := by
  unfold calc_crc32
  exact Nat.xor_lt_two_pow (foldl_crc_lt l _ h (by decide)) (by decide)

/-! ### Inversion of the generator's success path -/

/-- A successful `writeImage` implies all its checks passed and the
output buffer is the slot write. -/
theorem writeImage_ok_elim (binCheck : List Nat → Bool) (data : Buf)
    (image : List Nat) (addr : Nat) (data' : Buf)
    (h : writeImage binCheck data image addr = .ok data') :
    image.length ≤ SLOT_SIZE ∧ binCheck image = true ∧
      is_likely_valid_os_image_buf image = .val true ∧
      addr + image.length ≤ data.size ∧
      data' = writeRange data addr image (addr + image.length) := by
  unfold writeImage at h
  split at h
  · exact GenResult.noConfusion h
  next hle =>
    split at h
    · exact GenResult.noConfusion h
    next hbc =>
      split at h
      · exact GenResult.noConfusion h
      · exact GenResult.noConfusion h
      next hos =>
        split at h
        · exact GenResult.noConfusion h
        next d2 heq2 =>
          unfold set_buf_from_to at heq2
          split at heq2
          · exact Except.noConfusion heq2
          next hcond =>
            injection heq2 with heq3
            injection h with h4
            refine ⟨by omega, by simpa using hbc, hos, by omega,
              by rw [← h4, heq3]⟩

/-- A successful `generate_buffer` implies every check passed and the
output buffer is the literal six-write composition. -/
theorem generate_buffer_ok_elim (binCheck : List Nat → Bool)
    (bl i1 i2 i3 : List Nat) (buf : Buf)
    (hgen : generate_buffer binCheck bl i1 i2 i3 = .ok buf) :
    binCheck bl = true ∧ bl.length ≤ METADATA_1_ADDR ∧
      i1.length ≤ SLOT_SIZE ∧ binCheck i1 = true ∧
      is_likely_valid_os_image_buf i1 = .val true ∧
      i2.length ≤ SLOT_SIZE ∧ binCheck i2 = true ∧
      is_likely_valid_os_image_buf i2 = .val true ∧
      i3.length ≤ SLOT_SIZE ∧ binCheck i3 = true ∧
      is_likely_valid_os_image_buf i3 = .val true ∧
      buf = writeRange (writeRange (writeRange (writeRange (writeRange
          (writeRange ⟨FLASH_SIZE, fun _ => 0⟩ 0 bl METADATA_1_ADDR)
          SLOT_1_ADDR i1 (SLOT_1_ADDR + i1.length))
          SLOT_2_ADDR i2 (SLOT_2_ADDR + i2.length))
          SLOT_3_ADDR i3 (SLOT_3_ADDR + i3.length))
          METADATA_1_ADDR (generatedMetadata i1 i2 i3).toBytes
          METADATA_2_ADDR)
          METADATA_2_ADDR (generatedMetadata i1 i2 i3).toBytes
          SLOT_1_ADDR := by
  unfold generate_buffer at hgen
  split at hgen
  · exact GenResult.noConfusion hgen
  next hbcbl =>
    split at hgen
    · exact GenResult.noConfusion hgen
    next d1 heq1 =>
      unfold set_buf_from_to at heq1
      split at heq1
      · exact Except.noConfusion heq1
      next hcond1 =>
        injection heq1 with heq1v
        split at hgen
        · exact GenResult.noConfusion hgen
        · exact GenResult.noConfusion hgen
        next d2 heqw1 =>
          obtain ⟨hl1, hbc1, hos1, _, hd2⟩ :=
            writeImage_ok_elim _ _ _ _ _ heqw1
          split at hgen
          · exact GenResult.noConfusion hgen
          · exact GenResult.noConfusion hgen
          next d3 heqw2 =>
            obtain ⟨hl2, hbc2, hos2, _, hd3⟩ :=
              writeImage_ok_elim _ _ _ _ _ heqw2
            split at hgen
            · exact GenResult.noConfusion hgen
            · exact GenResult.noConfusion hgen
            next d4 heqw3 =>
              obtain ⟨hl3, hbc3, hos3, _, hd4⟩ :=
                writeImage_ok_elim _ _ _ _ _ heqw3
              split at hgen
              · exact GenResult.noConfusion hgen
              next d5 heq5 =>
                unfold set_buf_from_to at heq5
                split at heq5
                · exact Except.noConfusion heq5
                next hcond5 =>
                  injection heq5 with heq5v
                  split at hgen
                  · exact GenResult.noConfusion hgen
                  next d6 heq6 =>
                    unfold set_buf_from_to at heq6
                    split at heq6
                    · exact Except.noConfusion heq6
                    next hcond6 =>
                      injection heq6 with heq6v
                      injection hgen with hgenv
                      refine ⟨by simpa using hbcbl, by omega, hl1, hbc1,
                        hos1, hl2, hbc2, hos2, hl3, hbc3, hos3, ?_⟩
                      rw [← hgenv, ← heq6v, ← heq5v, hd4, hd3, hd2,
                        ← heq1v]

/-- The CRC field written by `set_crc` is a 32-bit value. -/
theorem set_crc_crc_lt (m : Metadata) : m.set_crc.crc < 2 ^ 32 := by
  show m.calc_crc < 2 ^ 32
  exact calc_crc32_lt _ (bytesNoCrc_mem_lt m)

/-- After `set_crc`, the stored CRC equals the recomputed one. -/
theorem set_crc_crc_eq_calc (m : Metadata) :
    m.set_crc.crc = m.set_crc.calc_crc := by
  show m.calc_crc = m.set_crc.calc_crc
  unfold Metadata.calc_crc
  rw [bytesNoCrc_set_crc]

/-- The entry-point check indexes bytes 4..8 before any length check, so
any buffer shorter than 8 bytes makes it panic. -/
theorem os_image_buf_short_panics (bytes : List Nat)
    (h : bytes.length < 8) :
    is_likely_valid_os_image_buf bytes = .panicked := by
  have h7 : bytes.get? 7 = none := by rw [List.get?_eq_none]; omega
  unfold is_likely_valid_os_image_buf
  rcases h4 : bytes.get? 4 with _ | b4 <;>
    rcases h5 : bytes.get? 5 with _ | b5 <;>
    rcases h6 : bytes.get? 6 with _ | b6 <;>
    rcases h7x : bytes.get? 7 with _ | b7 <;> simp_all
  have h77 : bytes[7]? = none := by
    rw [← List.get?_eq_getElem?, List.get?_eq_none]
    omega
  rw [h77] at h7x
  exact Option.noConfusion h7x

/-- For a disassembly respecting the two-byte minimum instruction size,
the binary heuristic rejects every buffer shorter than 8 bytes: at most
4 distinct mnemonics are possible, below the 15 required. -/
theorem binary_buf_short_false (disasm : List Nat → InstructionStats)
    (hbound : ∀ bytes, (disasm bytes).uniqueMnemonics ≤
      (bytes.length + 1) / 2)
    (bytes : List Nat) (h : bytes.length < 8) :
    is_likely_valid_binary_buf disasm bytes = false := by
  have hb := hbound bytes
  have hlt : (disasm bytes).uniqueMnemonics <
      BINARY_MIN_UNIQUE_INSTRUCTIONS := by
    unfold BINARY_MIN_UNIQUE_INSTRUCTIONS
    omega
  unfold is_likely_valid_binary_buf
  by_cases h1 : bytes.take 4 = [0x7f, 0x45, 0x4c, 0x46]
  · rw [if_pos h1]
  · rw [if_neg h1]
    by_cases h2 : (disasm bytes).undefinedTooMany = true
    · rw [if_pos h2]
    · rw [if_neg h2, if_pos hlt]

/-- On a buffer of at least 8 bytes, the entry-point check reads all
four bytes successfully and cannot panic. -/
theorem os_image_buf_long_not_panicked (bytes : List Nat)
    (h : 8 ≤ bytes.length) :
    is_likely_valid_os_image_buf bytes ≠ .panicked := by
  unfold is_likely_valid_os_image_buf
  rcases h4 : bytes.get? 4 with _ | b4
  · rw [List.get?_eq_none] at h4
    omega
  rcases h5 : bytes.get? 5 with _ | b5
  · rw [List.get?_eq_none] at h5
    omega
  rcases h6 : bytes.get? 6 with _ | b6
  · rw [List.get?_eq_none] at h6
    omega
  rcases h7 : bytes.get? 7 with _ | b7
  · rw [List.get?_eq_none] at h7
    omega
  simp

/-- `writeImage` can only panic through the entry-point check, and only
after the binary heuristic accepted the payload. -/
theorem writeImage_panicked_elim (binCheck : List Nat → Bool)
    (data : Buf) (image : List Nat) (addr : Nat)
    (h : writeImage binCheck data image addr = .panicked) :
    binCheck image = true ∧
      is_likely_valid_os_image_buf image = .panicked := by
  unfold writeImage at h
  split at h
  · exact GenResult.noConfusion h
  next hle =>
    split at h
    · exact GenResult.noConfusion h
    next hbc =>
      split at h
      next hos => exact ⟨by simpa using hbc, hos⟩
      · exact GenResult.noConfusion h
      next hos =>
        split at h
        · exact GenResult.noConfusion h
        · exact GenResult.noConfusion h

/-- `generate_buffer` can only panic through one of its three image
checks, each with the binary heuristic passing first. -/
theorem generate_buffer_panicked_elim (binCheck : List Nat → Bool)
    (bl i1 i2 i3 : List Nat)
    (h : generate_buffer binCheck bl i1 i2 i3 = .panicked) :
    (binCheck i1 = true ∧
        is_likely_valid_os_image_buf i1 = .panicked) ∨
      (binCheck i2 = true ∧
        is_likely_valid_os_image_buf i2 = .panicked) ∨
      (binCheck i3 = true ∧
        is_likely_valid_os_image_buf i3 = .panicked) := by
  unfold generate_buffer at h
  split at h
  · exact GenResult.noConfusion h
  next =>
    split at h
    · exact GenResult.noConfusion h
    next d1 heq1 =>
      split at h
      next hw1 => exact Or.inl (writeImage_panicked_elim _ _ _ _ hw1)
      · exact GenResult.noConfusion h
      next d2 hw1 =>
        split at h
        next hw2 =>
          exact Or.inr (Or.inl (writeImage_panicked_elim _ _ _ _ hw2))
        · exact GenResult.noConfusion h
        next d3 hw2 =>
          split at h
          next hw3 =>
            exact Or.inr (Or.inr (writeImage_panicked_elim _ _ _ _ hw3))
          · exact GenResult.noConfusion h
          next d4 hw3 =>
            split at h
            · exact GenResult.noConfusion h
            next d5 h5 =>
              split at h
              · exact GenResult.noConfusion h
              next d6 h6 => exact GenResult.noConfusion h

/-- `run` leaves exactly the scratch registers that `is_soft` leaves, on
every control path. -/
theorem run_scratch_eq (env : BootEnv) :
    (run env).scratch = (is_soft env.scratch).2 := by
  unfold run
  rcases h : is_soft env.scratch with ⟨oi, s'⟩
  cases oi with
  | some i => rfl
  | none =>
    rcases hsel : select_metadata env.dev env.md1 env.md2 with ⟨⟨mo, fx⟩, tr⟩
    cases mo with
    | some md =>
      cases hsi : select_image env.flashMem md <;> simp [hsel, hsi]
    | none => simp [hsel]

/-! ## Claim theorems -/

/-- C2 (counterexample to the lock-pairing claim): when the page erase of
the metadata repair reports `Illegal`, `write_metadata` propagates the
error with the `?` operator and returns with the flash still unlocked:
the trace holds the unlock but no lock. (The source itself records the
defect: "TODO: Instead of using ? operator, we must relock the flash".) -/
theorem c2_write_metadata_error_path_skips_lock :
    (write_metadata eraseIllegalDev [] sampleMetadata METADATA_1_ADDR).1 =
        .error .Illegal ∧
      FlashEvent.unlock ∈
        (write_metadata eraseIllegalDev [] sampleMetadata METADATA_1_ADDR).2 ∧
      FlashEvent.lock ∉
        (write_metadata eraseIllegalDev [] sampleMetadata METADATA_1_ADDR).2 :=
  ⟨rfl, by decide, by decide⟩

/-- C3: `copy_image_to_ram` does return an error once all three attempts
fail the CRC comparison — but the boot orchestrator does not treat that
failure as fatal: `run` discards the `Result` (main.rs line 158) and
hands execution off to the slot image anyway. -/
theorem c3_copy_failure_not_fatal :
    (∀ attemptOk : Nat → Bool, attemptOk 0 = false → attemptOk 1 = false →
        attemptOk 2 = false → copy_image_to_ram attemptOk = .error ()) ∧
      (run copyAlwaysFailsEnv).copyResult = some (.error ()) ∧
      (run copyAlwaysFailsEnv).outcome = .handoff SLOT_1_ADDR 0 := by
  have hsel : select_metadata healthyDev validSampleMetadata
      validSampleMetadata = ((some validSampleMetadata, .ok ()), []) := by
    simp [select_metadata, is_valid_set_crc, validSampleMetadata,
      internal_select]
  have hsi : select_image (fun _ => 0) validSampleMetadata = some 0 := by
    simp [select_image, preferredHit, validSampleMetadata,
      Metadata.set_crc, sampleMetadata, Images3.get?, verify_image,
      readBytes, calc_crc32, CRC_INITIAL_VALUE, CRC_FINAL_XOR_VALUE]
  have hlen : validSampleMetadata.images.i0.length = 0 := rfl
  refine ⟨fun a h0 h1 h2 => ?_, ?_, ?_⟩
  · simp [copy_image_to_ram, h0, h1, h2]
  · simp [run, copyAlwaysFailsEnv, is_soft, hsel, hsi, copy_image_to_ram]
  · simp [run, copyAlwaysFailsEnv, is_soft, hsel, hsi, slotAddr,
      Images3.get?, hlen]

/-- Witness for C3's universally quantified part at the all-failing
oracle. -/
theorem c3_copy_failure_not_fatal_witness :
    copy_image_to_ram (fun _ => false) = .error () :=
  c3_copy_failure_not_fatal.1 (fun _ => false) rfl rfl rfl

/-- C5: with the magic `0x5457` in scratch register 0, `run` zeroes both
scratch registers, and if the index in register 1 is below 3 it copies
that slot (full slot size) to RAM and hands off with no flash write and
no look at either metadata copy — the outcome is the same for every
metadata pair and validity state. -/
theorem c5_soft_reboot_bypasses_metadata (env : BootEnv)
    (h : env.scratch.bkpr0 = 0x5457) :
    (run env).scratch = ⟨0, 0⟩ ∧
      (env.scratch.bkpr1 < NUMBER_OF_IMAGES →
        (run env).outcome = .handoff (slotAddr env.scratch.bkpr1) SLOT_SIZE ∧
          (run env).flashEvents = []) := by
  constructor
  · rw [run_scratch_eq]
    by_cases hidx : env.scratch.bkpr1 < NUMBER_OF_IMAGES <;>
      simp [is_soft, h, hidx]
  · intro hidx
    have hs : is_soft env.scratch = (some env.scratch.bkpr1, ⟨0, 0⟩) := by
      simp [is_soft, h, hidx]
    unfold run
    rw [hs]
    exact ⟨rfl, rfl⟩

/-- Witness for C5: a concrete environment with the hint set and index 1;
the registers end zeroed and slot 1 is copied and handed off. -/
theorem c5_soft_reboot_bypasses_metadata_witness :
    (run { copyAlwaysFailsEnv with scratch := ⟨0x5457, 1⟩ }).scratch =
        ⟨0, 0⟩ ∧
      (run { copyAlwaysFailsEnv with scratch := ⟨0x5457, 1⟩ }).outcome =
        .handoff (slotAddr 1) SLOT_SIZE := by
  have h := c5_soft_reboot_bypasses_metadata
    { copyAlwaysFailsEnv with scratch := ⟨0x5457, 1⟩ } rfl
  exact ⟨h.1, (h.2 (by decide)).1⟩

/-- C4: for a valid metadata block, `select_image` returns the preferred
index whenever it addresses one of the three slots and the payload there
checksums to the declared CRC over the declared length; and whenever the
preferred branch misses, the scan returns the first index in order 0, 1,
2 whose slot bytes match their declared CRC. -/
theorem c4_select_image_preference_and_scan (flash : Nat → Nat)
    (m : Metadata) (hv : m.is_valid = true) :
    (∀ im, m.images.get? m.preferred_image = some im →
        calc_crc32 (readBytes flash (slotAddr m.preferred_image) im.length) =
          im.crc →
        select_image flash m = some m.preferred_image) ∧
      (preferredHit flash m = false →
        (calc_crc32 (readBytes flash (slotAddr 0) m.images.i0.length) =
            m.images.i0.crc → select_image flash m = some 0) ∧
          (calc_crc32 (readBytes flash (slotAddr 0) m.images.i0.length) ≠
              m.images.i0.crc →
            calc_crc32 (readBytes flash (slotAddr 1) m.images.i1.length) =
              m.images.i1.crc → select_image flash m = some 1) ∧
          (calc_crc32 (readBytes flash (slotAddr 0) m.images.i0.length) ≠
              m.images.i0.crc →
            calc_crc32 (readBytes flash (slotAddr 1) m.images.i1.length) ≠
              m.images.i1.crc →
            calc_crc32 (readBytes flash (slotAddr 2) m.images.i2.length) =
              m.images.i2.crc → select_image flash m = some 2)) := by
  constructor
  · intro im hsome hcrc
    have hpref : preferredHit flash m = true := by
      simp [preferredHit, hsome, verify_image, hcrc]
    simp [select_image, hpref]
  · intro hpf
    refine ⟨fun h0 => ?_, fun h0 h1 => ?_, fun h0 h1 h2 => ?_⟩
    · simp [select_image, hpf, verify_image, h0]
    · simp [select_image, hpf, verify_image, h0, h1]
    · simp [select_image, hpf, verify_image, h0, h1, h2]

/-- A metadata block whose preferred slot 0 declares a CRC that the slot
payload does not match, while slot 1 matches (both declare length 0, so
the payload CRC is `calc_crc32 [] = 0`). -/
def mismatchPreferredMetadata : Metadata :=
  Metadata.set_crc
    { version := 1, bootcounter := 0, preferred_image := 0
      images :=
        { i0 := ⟨1, 1, 0, 0⟩, i1 := ⟨1, 0, 0, 0⟩, i2 := ⟨1, 0, 0, 0⟩ }
      crc := 0 }

/-- Witness for C4: preferred slot 0 mismatches and slot 1 matches, so
`select_image` returns 1. -/
theorem c4_select_image_preference_and_scan_witness :
    select_image (fun _ => 0) mismatchPreferredMetadata = some 1 := by
  have h := c4_select_image_preference_and_scan (fun _ => 0)
    mismatchPreferredMetadata (is_valid_set_crc _)
  refine (h.2 ?_).2.1 ?_ ?_
  · simp [preferredHit, mismatchPreferredMetadata, Metadata.set_crc,
      Images3.get?, verify_image, readBytes, calc_crc32,
      CRC_INITIAL_VALUE, CRC_FINAL_XOR_VALUE]
  · simp [mismatchPreferredMetadata, Metadata.set_crc, readBytes,
      calc_crc32, CRC_INITIAL_VALUE, CRC_FINAL_XOR_VALUE]
  · simp [mismatchPreferredMetadata, Metadata.set_crc, readBytes,
      calc_crc32, CRC_INITIAL_VALUE, CRC_FINAL_XOR_VALUE]

/-- C6: the 64-byte all-ones buffer and the 64-byte all-zeros buffer,
both reinterpreted as `Metadata`, fail `is_valid`: in each case the
stored CRC field differs from the CRC-32C of the first 60 bytes. -/
theorem c6_erased_and_zeroed_blocks_invalid :
    (parseMetadata (List.replicate 64 255)).is_valid = false ∧
      (parseMetadata (List.replicate 64 255)).crc ≠
        calc_crc32 ((List.replicate 64 255).take 60) ∧
      (parseMetadata (List.replicate 64 0)).is_valid = false ∧
      (parseMetadata (List.replicate 64 0)).crc ≠
        calc_crc32 ((List.replicate 64 0).take 60) := by
  refine ⟨?_, ?_, ?_, ?_⟩ <;>
    simp [parseMetadata, parseImageMetadata, r32, Metadata.is_valid,
      Metadata.calc_crc, Metadata.bytesNoCrc, ImageMetadata.toBytes,
      u32le, calc_crc32, crcByteStep, crcShift8, crcShift,
      DEFAULT_POLYNOM, CRC_INITIAL_VALUE, CRC_FINAL_XOR_VALUE,
      List.replicate, List.getD]

/-- C7: `set_crc` followed by `is_valid` is always true; and on a valid
block, substituting any single byte of the first 60 (the region outside
the CRC field) with a different byte value yields an invalid block. -/
theorem c7_set_crc_valid_and_byte_change_invalidates (m m' : Metadata)
    (i y : Nat) :
    m.set_crc.is_valid = true ∧
      (m.is_valid = true → m'.crc = m.crc → i < 60 → y < 256 →
        y ≠ m.bytesNoCrc.getD i 0 →
        m'.bytesNoCrc = m.bytesNoCrc.set i y →
        m'.is_valid = false) := by
  refine ⟨is_valid_set_crc m, ?_⟩
  intro hv hcrc hi hy hne hset
  have hm : m.crc = calc_crc32 m.bytesNoCrc := by
    simpa [Metadata.is_valid, Metadata.calc_crc] using hv
  have hlen : m.bytesNoCrc.length = 60 := bytesNoCrc_length m
  have hilt : i < m.bytesNoCrc.length := by omega
  have hxmem : m.bytesNoCrc.getD i 0 ∈ m.bytesNoCrc := by
    rw [List.getD_eq_getElem _ 0 hilt]
    exact List.getElem_mem hilt
  have hx : m.bytesNoCrc.getD i 0 < 256 := bytesNoCrc_mem_lt m _ hxmem
  have hpre : ∀ b ∈ m.bytesNoCrc.take i, b < 256 := fun b hb =>
    bytesNoCrc_mem_lt m b (List.mem_of_mem_take hb)
  have hsuf : ∀ b ∈ m.bytesNoCrc.drop (i + 1), b < 256 := fun b hb =>
    bytesNoCrc_mem_lt m b (List.mem_of_mem_drop hb)
  have hdiff : calc_crc32 (m.bytesNoCrc.take i ++
      m.bytesNoCrc.getD i 0 :: m.bytesNoCrc.drop (i + 1)) ≠
      calc_crc32 (m.bytesNoCrc.take i ++ y :: m.bytesNoCrc.drop (i + 1)) :=
    calc_crc32_single_byte_change _ _ _ _ hpre hsuf hx hy
      (fun h => hne h.symm)
  have hmain : m.crc ≠ calc_crc32 m'.bytesNoCrc := by
    rw [hset, list_set_decomp _ _ _ hilt, hm]
    conv_lhs => rw [list_decomp_getD m.bytesNoCrc i hilt]
    exact hdiff
  simp [Metadata.is_valid, Metadata.calc_crc, hcrc]
  exact hmain

/-- Witness for C7: the valid sample block with byte 0 (the low byte of
`version`, 1) replaced by 7 fails `is_valid`. -/
theorem c7_set_crc_valid_and_byte_change_invalidates_witness :
    ({ validSampleMetadata with version := 7 } : Metadata).is_valid =
      false := by
  refine (c7_set_crc_valid_and_byte_change_invalidates validSampleMetadata
    { validSampleMetadata with version := 7 } 0 7).2
    (is_valid_set_crc sampleMetadata) rfl (by decide) (by decide)
    (by decide) (by decide)

/-- C10 counterexample: on a concrete 5-byte payload, with a 64-byte
zero bootloader and the most permissive realizable disassembly, the
builder returns a validation error (`Err`, surfaced as a nonzero exit
code) through the binary heuristic — it does not crash. This refutes
the claimed "the host builder crashes rather than failing with a
validation error": `is_likely_valid_binary_buf` runs first
(generate.rs:52) and a sub-8-byte buffer can never supply the 15
distinct mnemonics it requires. -/
theorem c10_short_image_counterexample :
    generate_buffer (is_likely_valid_binary_buf maxDisasm)
      (List.replicate 64 0) [0, 0, 0, 0, 0] [0, 0, 0, 0, 0]
      [0, 0, 0, 0, 0] = .err := by
  rfl

/-- C10 (amended): `is_likely_valid_os_image_buf` panics (out-of-bounds
index into bytes 4..8) on every buffer shorter than 8 bytes instead of
returning a `BinaryFileError`; but the host builder does not crash on
such a payload: for every disassembly respecting the two-byte minimum
instruction size, `is_likely_valid_binary_buf` — which `generate_buffer`
runs before the entry-point check — rejects every sub-8-byte buffer
(under 15 distinct mnemonics), so `generate_buffer` never reaches the
panicking check and fails with a validation error instead. -/
theorem c10_short_image_panics_check_not_builder :
    (∀ bytes : List Nat, bytes.length < 8 →
        is_likely_valid_os_image_buf bytes = .panicked) ∧
      (∀ disasm : List Nat → InstructionStats,
        (∀ bytes, (disasm bytes).uniqueMnemonics ≤
          (bytes.length + 1) / 2) →
        (∀ bytes : List Nat, bytes.length < 8 →
          is_likely_valid_binary_buf disasm bytes = false) ∧
        (∀ bl i1 i2 i3 : List Nat,
          generate_buffer (is_likely_valid_binary_buf disasm)
            bl i1 i2 i3 ≠ .panicked)) := by
  refine ⟨os_image_buf_short_panics, fun disasm hbound =>
    ⟨binary_buf_short_false disasm hbound, ?_⟩⟩
  intro bl i1 i2 i3 h
  have key : ∀ im : List Nat,
      is_likely_valid_binary_buf disasm im = true →
      is_likely_valid_os_image_buf im ≠ .panicked := by
    intro im hbc
    by_cases hlen : im.length < 8
    · rw [binary_buf_short_false disasm hbound im hlen] at hbc
      exact Bool.noConfusion hbc
    · exact os_image_buf_long_not_panicked im (by omega)
  rcases generate_buffer_panicked_elim _ _ _ _ _ h with
    ⟨hbc, hos⟩ | ⟨hbc, hos⟩ | ⟨hbc, hos⟩
  · exact key _ hbc hos
  · exact key _ hbc hos
  · exact key _ hbc hos

/-- Witness for the amended C10: the 5-byte payload panics the
entry-point check in isolation, the binary heuristic (under the most
permissive realizable disassembly) rejects it, and the builder run does
not panic. -/
theorem c10_short_image_panics_check_not_builder_witness :
    is_likely_valid_os_image_buf [0, 0, 0, 0, 0] = .panicked ∧
      is_likely_valid_binary_buf maxDisasm [0, 0, 0, 0, 0] = false ∧
      generate_buffer (is_likely_valid_binary_buf maxDisasm)
        (List.replicate 64 0) [0, 0, 0, 0, 0] [0, 0, 0, 0, 0]
        [0, 0, 0, 0, 0] ≠ .panicked := by
  have h := c10_short_image_panics_check_not_builder
  have hb := h.2 maxDisasm (fun bytes => Nat.le_refl _)
  exact ⟨h.1 _ (by decide), hb.1 _ (by decide), hb.2 _ _ _ _⟩

/-- A slot check passes when the slice is in bounds, equals a payload
list whose CRC, heuristic and entry-point check all pass. -/
theorem checkSlot_clean (binCheck : List Nat → Bool) (buf : Buf)
    (md : Metadata) (w idx : Nat) (l : List Nat)
    (hgd : (md.images.get? idx).getD ⟨0, 0, 0, 0⟩ = imageMetadataFor l)
    (hb : ¬(slotAddr idx + l.length > buf.size))
    (hsl : readBytes buf.byteAt (slotAddr idx) l.length = l)
    (hos : is_likely_valid_os_image_buf l = .val true)
    (hbc : binCheck l = true) :
    checkSlot binCheck buf md w idx = .val [] := by
  unfold checkSlot
  rw [hgd]
  rw [show (imageMetadataFor l).length = l.length from rfl]
  rw [if_neg hb]
  rw [hsl, hos]
  simp [imageMetadataFor, hbc]

/-- All reader passes succeed on two equal metadata blocks whose CRC
field matches and whose slot checks are clean. -/
theorem readChecks_clean (binCheck : List Nat → Bool) (buf : Buf)
    (md : Metadata)
    (h0 : ∀ w, checkSlot binCheck buf md w 0 = .val [])
    (h1 : ∀ w, checkSlot binCheck buf md w 1 = .val [])
    (h2 : ∀ w, checkSlot binCheck buf md w 2 = .val [])
    (hcrc : md.crc = md.calc_crc) :
    readChecks binCheck buf md md = .val [] := by
  unfold readChecks
  rw [h0 1, h0 2, h1 1, h1 2, h2 1, h2 2]
  simp [hcrc]

/-- C8: host write followed by host read round-trips. For byte-valued
inputs accepted by `generate_buffer`, the produced `FLASH_SIZE` buffer
carries the one generated metadata block — version 1, bootcounter 0,
preferred image 0, and per image version 1 with that image's CRC-32C and
length — as identical bytes at `METADATA_1_ADDR` and `METADATA_2_ADDR`
with the rest of each metadata region zeroed, and the reader validates
both metadata CRCs, every image CRC over its declared length at its slot
start, and the equality of the two blocks, reporting no discrepancies. -/
theorem c8_write_read_roundtrip (binCheck : List Nat → Bool)
    (bl i1 i2 i3 : List Nat) (buf : Buf)
    (hby1 : ∀ b ∈ i1, b < 256) (hby2 : ∀ b ∈ i2, b < 256)
    (hby3 : ∀ b ∈ i3, b < 256)
    (hgen : generate_buffer binCheck bl i1 i2 i3 = .ok buf) :
    buf.size = FLASH_SIZE ∧
      readBytes buf.byteAt METADATA_1_ADDR 64 =
        (generatedMetadata i1 i2 i3).toBytes ∧
      readBytes buf.byteAt METADATA_2_ADDR 64 =
        (generatedMetadata i1 i2 i3).toBytes ∧
      (∀ p, METADATA_1_ADDR + 64 ≤ p → p < METADATA_2_ADDR →
        buf.byteAt p = 0) ∧
      (∀ p, METADATA_2_ADDR + 64 ≤ p → p < SLOT_1_ADDR →
        buf.byteAt p = 0) ∧
      read binCheck buf = .val [] := by
  obtain ⟨hbcbl, hbl, hl1, hbc1, hos1, hl2, hbc2, hos2, hl3, hbc3, hos3,
    hbuf⟩ := generate_buffer_ok_elim binCheck bl i1 i2 i3 buf hgen
  have eM1 : METADATA_1_ADDR = 8192 := rfl
  have eM2 : METADATA_2_ADDR = 16384 := rfl
  have eS1 : SLOT_1_ADDR = 24576 := rfl
  have eS2 : SLOT_2_ADDR = 540672 := rfl
  have eS3 : SLOT_3_ADDR = 1056768 := rfl
  have eSS : SLOT_SIZE = 516096 := rfl
  have eFS : FLASH_SIZE = 2097152 := rfl
  have hmdB : (generatedMetadata i1 i2 i3).toBytes.length = 64 :=
    toBytes_length _
  have hsize : buf.size = FLASH_SIZE := by rw [hbuf]; rfl
  have hmd1 : ∀ j, j < 64 → buf.byteAt (METADATA_1_ADDR + j) =
      (generatedMetadata i1 i2 i3).toBytes.getD j 0 := by
    intro j hj
    rw [hbuf]
    rw [writeRange_at_outside _ _ _ _ _ (Or.inl (by omega))]
    rw [writeRange_at_src _ _ _ _ _ (by omega) (by omega)]
    rw [show METADATA_1_ADDR + j - METADATA_1_ADDR = j from by omega]
  have hmd2 : ∀ j, j < 64 → buf.byteAt (METADATA_2_ADDR + j) =
      (generatedMetadata i1 i2 i3).toBytes.getD j 0 := by
    intro j hj
    rw [hbuf]
    rw [writeRange_at_src _ _ _ _ _ (by omega) (by omega)]
    rw [show METADATA_2_ADDR + j - METADATA_2_ADDR = j from by omega]
  have hrb1 : readBytes buf.byteAt METADATA_1_ADDR 64 =
      (generatedMetadata i1 i2 i3).toBytes := by
    rw [← hmdB]
    exact readBytes_eq_list _ _ _ (fun j hj => hmd1 j (by omega))
  have hrb2 : readBytes buf.byteAt METADATA_2_ADDR 64 =
      (generatedMetadata i1 i2 i3).toBytes := by
    rw [← hmdB]
    exact readBytes_eq_list _ _ _ (fun j hj => hmd2 j (by omega))
  have hz1 : ∀ p, METADATA_1_ADDR + 64 ≤ p → p < METADATA_2_ADDR →
      buf.byteAt p = 0 := by
    intro p h1 h2
    rw [hbuf]
    rw [writeRange_at_outside _ _ _ _ _ (Or.inl (by omega))]
    rw [writeRange_at_pad _ _ _ _ _ (by omega) (by omega)]
  have hz2 : ∀ p, METADATA_2_ADDR + 64 ≤ p → p < SLOT_1_ADDR →
      buf.byteAt p = 0 := by
    intro p h1 h2
    rw [hbuf]
    rw [writeRange_at_pad _ _ _ _ _ (by omega) (by omega)]
  have hsl1 : readBytes buf.byteAt SLOT_1_ADDR i1.length = i1 := by
    refine readBytes_eq_list _ _ _ ?_
    intro j hj
    rw [hbuf]
    rw [writeRange_at_outside _ _ _ _ _ (Or.inr ⟨by omega, by omega⟩)]
    rw [writeRange_at_outside _ _ _ _ _ (Or.inr ⟨by omega, by omega⟩)]
    rw [writeRange_at_outside _ _ _ _ _ (Or.inl (by omega))]
    rw [writeRange_at_outside _ _ _ _ _ (Or.inl (by omega))]
    rw [writeRange_at_src _ _ _ _ _ (by omega) (by omega)]
    rw [show SLOT_1_ADDR + j - SLOT_1_ADDR = j from by omega]
  have hsl2 : readBytes buf.byteAt SLOT_2_ADDR i2.length = i2 := by
    refine readBytes_eq_list _ _ _ ?_
    intro j hj
    rw [hbuf]
    rw [writeRange_at_outside _ _ _ _ _ (Or.inr ⟨by omega, by omega⟩)]
    rw [writeRange_at_outside _ _ _ _ _ (Or.inr ⟨by omega, by omega⟩)]
    rw [writeRange_at_outside _ _ _ _ _ (Or.inl (by omega))]
    rw [writeRange_at_src _ _ _ _ _ (by omega) (by omega)]
    rw [show SLOT_2_ADDR + j - SLOT_2_ADDR = j from by omega]
  have hsl3 : readBytes buf.byteAt SLOT_3_ADDR i3.length = i3 := by
    refine readBytes_eq_list _ _ _ ?_
    intro j hj
    rw [hbuf]
    rw [writeRange_at_outside _ _ _ _ _ (Or.inr ⟨by omega, by omega⟩)]
    rw [writeRange_at_outside _ _ _ _ _ (Or.inr ⟨by omega, by omega⟩)]
    rw [writeRange_at_src _ _ _ _ _ (by omega) (by omega)]
    rw [show SLOT_3_ADDR + j - SLOT_3_ADDR = j from by omega]
  have hmdw : MetadataWf (generatedMetadata i1 i2 i3) := by
    refine ⟨(by decide : (1 : Nat) < 2 ^ 32),
      (by decide : (0 : Nat) < 2 ^ 32), (by decide : (0 : Nat) < 2 ^ 32),
      (by decide : (1 : Nat) < 2 ^ 32), calc_crc32_lt i1 hby1,
      (by decide : (0 : Nat) < 2 ^ 32), show i1.length < 2 ^ 32 by omega,
      (by decide : (1 : Nat) < 2 ^ 32), calc_crc32_lt i2 hby2,
      (by decide : (0 : Nat) < 2 ^ 32), show i2.length < 2 ^ 32 by omega,
      (by decide : (1 : Nat) < 2 ^ 32), calc_crc32_lt i3 hby3,
      (by decide : (0 : Nat) < 2 ^ 32), show i3.length < 2 ^ 32 by omega,
      set_crc_crc_lt _⟩
  have hp1 : parseMetadata (readBytes buf.byteAt METADATA_1_ADDR 64) =
      generatedMetadata i1 i2 i3 := by
    rw [hrb1]
    exact parseMetadata_toBytes _ hmdw
  have hp2 : parseMetadata (readBytes buf.byteAt METADATA_2_ADDR 64) =
      generatedMetadata i1 i2 i3 := by
    rw [hrb2]
    exact parseMetadata_toBytes _ hmdw
  have hsa0 : slotAddr 0 = SLOT_1_ADDR := rfl
  have hsa1 : slotAddr 1 = SLOT_2_ADDR := rfl
  have hsa2 : slotAddr 2 = SLOT_3_ADDR := rfl
  have hg0 : ((generatedMetadata i1 i2 i3).images.get? 0).getD
      ⟨0, 0, 0, 0⟩ = imageMetadataFor i1 := rfl
  have hg1 : ((generatedMetadata i1 i2 i3).images.get? 1).getD
      ⟨0, 0, 0, 0⟩ = imageMetadataFor i2 := rfl
  have hg2 : ((generatedMetadata i1 i2 i3).images.get? 2).getD
      ⟨0, 0, 0, 0⟩ = imageMetadataFor i3 := rfl
  have hcs0 : ∀ w, checkSlot binCheck buf (generatedMetadata i1 i2 i3)
      w 0 = .val [] := fun w =>
    checkSlot_clean binCheck buf _ w 0 i1 hg0
      (by rw [hsa0]; omega) (by rw [hsa0]; exact hsl1) hos1 hbc1
  have hcs1 : ∀ w, checkSlot binCheck buf (generatedMetadata i1 i2 i3)
      w 1 = .val [] := fun w =>
    checkSlot_clean binCheck buf _ w 1 i2 hg1
      (by rw [hsa1]; omega) (by rw [hsa1]; exact hsl2) hos2 hbc2
  have hcs2 : ∀ w, checkSlot binCheck buf (generatedMetadata i1 i2 i3)
      w 2 = .val [] := fun w =>
    checkSlot_clean binCheck buf _ w 2 i3 hg2
      (by rw [hsa2]; omega) (by rw [hsa2]; exact hsl3) hos3 hbc3
  refine ⟨hsize, hrb1, hrb2, hz1, hz2, ?_⟩
  unfold read
  rw [if_neg (show ¬(buf.size ≠ FLASH_SIZE) from fun h => h hsize)]
  rw [hp1, hp2]
  exact readChecks_clean binCheck buf _ hcs0 hcs1 hcs2
    (set_crc_crc_eq_calc _)

/-- Inputs for the C8 witness: an empty bootloader and three 8-byte
images whose entry-point word points at the RAM base. -/
def witnessImage : List Nat := [0, 0, 0, 0, 0, 0, 0, 32]

/-- The buffer produced by `generate_buffer` on the witness inputs (the
match is total on the success path). -/
def witnessBuf : Buf :=
  match generate_buffer (fun _ => true) [] witnessImage witnessImage
      witnessImage with
  | .ok b => b
  | _ => { size := 0, byteAt := fun _ => 0 }

/-- Witness for C8: on the concrete witness inputs, the generated buffer
passes the reader with no discrepancies. -/
theorem c8_write_read_roundtrip_witness :
    read (fun _ => true) witnessBuf = .val [] :=
  (c8_write_read_roundtrip (fun _ => true) [] witnessImage witnessImage
    witnessImage witnessBuf (by decide) (by decide) (by decide)
    rfl).2.2.2.2.2

/-- C1: for every pair of `Metadata` values and validity booleans,
`internal_select` returns exactly the row of the section 4.5 decision
table: both invalid gives no choice and no repair; a single valid copy is
chosen and repairs the other; two valid copies with different versions
choose the strictly newer one and repair the other copy's address; equal
versions choose copy A with no repair. -/
theorem c1_internal_select_matches_decision_table (a b : Metadata)
    (a_ok b_ok : Bool) :
    internal_select a a_ok b b_ok = decisionTableSelect a b a_ok b_ok := by
  cases a_ok <;> cases b_ok <;>
    simp [internal_select, decisionTableSelect]

/-- C9: `page_span(len, ps) * ps ≥ len` for every `len ≤ FLASH_SIZE` and
each supported page size, together with the five concrete values named in
the spec. -/
theorem c9_page_span_covers (len ps : Nat) (hlen : len ≤ FLASH_SIZE)
    (hps : ps = DUAL_BANK_PAGE_SIZE ∨ ps = SINGLE_BANK_PAGE_SIZE) :
    len ≤ page_span len ps * ps ∧
      page_span 0x3000 0x2000 = 2 ∧ page_span 0x4000 0x2000 = 2 ∧
      page_span 0x4001 0x2000 = 3 ∧ page_span 1 0x1000 = 1 ∧
      page_span 0x2001 0x1000 = 3 := by
  refine ⟨?_, by decide, by decide, by decide, by decide, by decide⟩
  rcases hps with h | h <;> subst h <;>
    simp only [page_span, DUAL_BANK_PAGE_SIZE, SINGLE_BANK_PAGE_SIZE] <;>
    omega

/-- Witness for C9 at `len = 5`, `ps = 0x1000`. -/
theorem c9_page_span_covers_witness :
    5 ≤ page_span 5 0x1000 * 0x1000 :=
  (c9_page_span_covers 5 0x1000 (by decide) (Or.inl rfl)).1

end Moveloader
